import Mathlib

/-!
# example_subscriber.cxx: the sample drain, the event loop and main

A shallow embedding of `src/07/example_subscriber.cxx`.

* `process_data` is the drain: one `take`, one pass over the loaned samples.
* `event_loop` is the `while` loop of `run_subscriber_application`; the
  substrate (DDS middleware, signal handler) is an explicit oracle `Substrate`
  that says what each constructor call, each read of the shutdown flag and each
  call of `waitset.dispatch` does.
* `main` is the entry point with its `try`/`catch`.

Machine integers: `int` is a 32-bit signed integer (`wrapInt32`), `unsigned int`
is a natural number reduced modulo `2^32`.
-/

namespace ExampleSubscriber

/-! ## Data model -/

/-- Modelled from the spec: the `position` member of the externally defined
record `acme::Pose` (the IDL-generated `example.hpp` is absent). Only the
member named by the filter expression of the source, `position.x`, is kept; the
numeric field is taken over the integers. -/
structure Position where
  x : Int
deriving DecidableEq, Repr

/-- Modelled from the spec: the externally defined record `acme::Pose`, "a
Pose-shaped record with at least one filterable numeric field". -/
structure Pose where
  position : Position
deriving DecidableEq, Repr

/-- The values of `sample.info().state().instance_state()`. -/
inductive InstanceState where
  | alive
  | not_alive_disposed
  | not_alive_no_writers
deriving DecidableEq, Repr

/-- The part of `sample.info()` that the source reads. -/
structure SampleInfo where
  valid : Bool
  instance_state : InstanceState
deriving DecidableEq, Repr

/-- One element of a `LoanedSamples<acme::Pose>`. -/
structure Sample where
  info : SampleInfo
  data : Pose
deriving DecidableEq, Repr

/-- An object thrown by a C++ `throw`. `exception` stands for any object whose
class derives from `std::exception` (every DDS exception does); `foreign` is
any other thrown object. -/
inductive Thrown where
  | exception (what : String)
  | foreign
deriving DecidableEq, Repr

/-- The comparison operators of a filter expression. -/
inductive CmpOp where
  | lt
  | le
  | eq
  | ne
  | ge
  | gt
deriving DecidableEq, Repr

/-- The argument of `dds::topic::Filter(...)`, split into its three tokens:
the field, the operator and the operand. -/
structure Filter where
  field : String
  op : CmpOp
  operand : Int
deriving DecidableEq, Repr

/-- Modelled from the spec: the status type of the DDS library (absent) handed
to `on_requested_incompatible_qos`: "the handler receives cumulative and delta
mismatch counts and the identifier of the first mismatched policy". The fields
carry the names of the three accessors the source calls, in that order. -/
structure RequestedIncompatibleQosStatus where
  total_count : Int
  total_count_change : Int
  last_policy_id : Nat
deriving DecidableEq, Repr

/-- What the program writes to `std::cout` and `std::cerr`, one constructor per
output statement of the source. -/
inductive Output where
  | sleeping
  | data (d : Pose)
  | instance_state_changed (st : InstanceState)
  | incompatible_offered_qos
  | total_count (n : Int)
  | total_count_change (n : Int)
  | last_policy_id (id : Nat)
  | exception_in_run (what : String)
deriving DecidableEq, Repr

/-- A `dds::sub::DataReader<acme::Pose>`: the samples waiting in its buffer,
the fault (if any) with which the substrate fails its next `take`, and the
content filter of the topic it is bound to. -/
structure DataReader where
  buffer : List Sample
  fault : Option Thrown
  filter : Option Filter
deriving DecidableEq, Repr

/-! ## Machine integers -/

/-- Reduction of an integer to the range of a 32-bit `int`. -/
def wrapInt32 (i : Int) : Int :=
  (i + 2147483648) % 4294967296 - 2147483648

/-- Conversion of an `int` to `unsigned int`. -/
def toUInt32 (i : Int) : Nat :=
  (i % 4294967296).toNat

/-- Addition of two `unsigned int` values. -/
def addUInt32 (a b : Nat) : Nat :=
  (a + b) % 4294967296

/-! ## The sample drain -/

/-- Modelled from the spec: `reader.take()` of the DDS library (absent):
"removes all currently available samples from the reader's buffer in one atomic
batch (no partial take)"; a substrate fault makes the call throw. -/
def DataReader.take (reader : DataReader) : Except Thrown (List Sample × DataReader) :=
  match reader.fault with
  | some e => .error e
  | none => .ok (reader.buffer, { reader with buffer := [] })

/-- The local state of the `for` loop of `process_data`: the counter `count`,
what has been printed, and the samples the body has run on so far. -/
structure DrainState where
  count : Int
  out : List Output
  visited : List Sample
deriving DecidableEq, Repr

/-- The body of the `for` loop of `process_data`. -/
def process_sample (st : DrainState) (sample : Sample) : DrainState :=
  if sample.info.valid then
    { count := wrapInt32 (st.count + 1),
      out := st.out ++ [Output.data sample.data],
      visited := st.visited ++ [sample] }
  else
    { count := st.count,
      out := st.out ++ [Output.instance_state_changed sample.info.instance_state],
      visited := st.visited ++ [sample] }

/-- The result of one call of `process_data`: the returned `count`, the output
written, the samples visited and the reader after the call. -/
structure Drained where
  count : Int
  out : List Output
  visited : List Sample
  reader : DataReader
deriving DecidableEq, Repr

/-- The function `int process_data(dds::sub::DataReader<acme::Pose> reader)`:
one `take`, then the `for` loop over the loaned samples; `count` is returned. -/
def process_data (reader : DataReader) : Except Thrown Drained :=
  match reader.take with
  | .error e => .error e
  | .ok (samples, reader1) =>
    let st := samples.foldl process_sample { count := 0, out := [], visited := [] }
    .ok { count := st.count, out := st.out, visited := st.visited, reader := reader1 }

/-- What the loop body writes for one sample. -/
def expose (sample : Sample) : Output :=
  if sample.info.valid then Output.data sample.data
  else Output.instance_state_changed sample.info.instance_state

/-- The number of samples of a batch whose validity flag is set. -/
def validCount (samples : List Sample) : Nat :=
  samples.countP (fun s => s.info.valid)

/-! ## The content filter -/

/-- The filter of the source: `dds::topic::Filter("position.x >= 0")`. -/
def cft_filter : Filter :=
  { field := "position.x", op := CmpOp.ge, operand := 0 }

/-- Modelled from the spec: the value of a named field of a payload, as the
substrate's filter evaluator (absent) reads it. -/
def Pose.field? (p : Pose) (name : String) : Option Int :=
  if name = "position.x" then some p.position.x else none

/-- Modelled from the spec: the meaning of a comparison operator in the
substrate's filter evaluator (absent). -/
def CmpOp.holds (op : CmpOp) (a b : Int) : Bool :=
  match op with
  | .lt => decide (a < b)
  | .le => decide (a ≤ b)
  | .eq => decide (a = b)
  | .ne => decide (a ≠ b)
  | .ge => decide (a ≥ b)
  | .gt => decide (a > b)

/-- Modelled from the spec: evaluation of a compiled filter on a payload by the
substrate (absent): "a payload with the filtered field below the threshold is
never delivered, one at or above is always delivered". -/
def Filter.admits (f : Filter) (p : Pose) : Bool :=
  match p.field? f.field with
  | some v => f.op.holds v f.operand
  | none => false

/-- Modelled from the spec: arrival of one update at a reader. The filter of a
content-filtered topic is applied before the reader's buffer: a suppressed
update never consumes buffer capacity. -/
def DataReader.deliver (reader : DataReader) (sample : Sample) : DataReader :=
  match reader.filter with
  | none => { reader with buffer := reader.buffer ++ [sample] }
  | some f =>
    if f.admits sample.data then { reader with buffer := reader.buffer ++ [sample] }
    else reader

/-- Arrival of a sequence of updates, in order. -/
def DataReader.deliverAll (reader : DataReader) (samples : List Sample) : DataReader :=
  samples.foldl DataReader.deliver reader

/-- A valid data sample carrying the given `position.x`. -/
def poseSample (x : Int) : Sample :=
  { info := { valid := true, instance_state := InstanceState.alive },
    data := { position := { x := x } } }

/-- The reader of `run_subscriber_application` right after its creation: bound
to `cft_topic`, nothing buffered yet. -/
def filtered_reader : DataReader :=
  { buffer := [], fault := none, filter := some cft_filter }

/-! ## The incompatible-QoS listener -/

/-- The variables of the process that a callback could touch: the counter
`samples_read`, the flag `application::shutdown_requested`, and the output. -/
structure ProcessState where
  samples_read : Nat
  shutdown_requested : Bool
  out : List Output
deriving DecidableEq, Repr

/-- The callback `MyReaderListener::on_requested_incompatible_qos(reader, status)`:
four output statements, nothing else. -/
def MyReaderListener.on_requested_incompatible_qos (_reader : DataReader)
    (status : RequestedIncompatibleQosStatus) (p : ProcessState) : Except Thrown ProcessState :=
  .ok { p with out := p.out ++
      [Output.incompatible_offered_qos,
       Output.total_count status.total_count,
       Output.total_count_change status.total_count_change,
       Output.last_policy_id status.last_policy_id] }

/-- The policy identifiers that the listener's output reports. -/
def reportedPolicies (out : List Output) : List Nat :=
  out.filterMap (fun o => match o with
    | Output.last_policy_id id => some id
    | _ => none)

/-! ## The event loop -/

/-- What one call of `waitset.dispatch(dds::core::Duration(1))` does: the wait
times out with no condition active, or the read condition is active and its
handler runs on the reader in the given state, or the wait itself throws. -/
inductive DispatchOutcome where
  | timeout
  | fired (reader : DataReader)
  | fault (e : Thrown)
deriving DecidableEq, Repr

/-- The status masks of the DDS API that matter here. -/
inductive StatusMask where
  | none
  | requested_incompatible_qos
  | all
deriving DecidableEq, Repr

/-- The entities that `run_subscriber_application` constructs, with the
arguments the source passes. -/
inductive Entity where
  | qos_provider (uri : String) (profile : String)
  | participant (domain_id : Nat)
  | topic (name : String)
  | subscriber
  | content_filtered_topic (name : String) (filter : Filter)
  | reader (filter : Option Filter) (listener : Bool) (mask : StatusMask)
  | read_condition
  | waitset
deriving DecidableEq, Repr

/-- The substrate as seen by the program: whether each constructor call throws,
the value of `application::shutdown_requested` at the `k`-th evaluation of the
loop guard, and what the `k`-th call of `waitset.dispatch` does (counting from
zero). -/
structure Substrate where
  create : Entity → Option Thrown
  shutdown_requested : Nat → Bool
  dispatch : Nat → DispatchOutcome

/-- The constants that the IDL-generated `example.hpp` (absent) supplies. -/
structure Idl where
  qos_library : String
  qos_profile : String
  pose_topic_name : String
deriving DecidableEq, Repr

/-- The state of the loop of `run_subscriber_application`: the variable
`samples_read`, and a record of what has happened: the number of calls of
`waitset.dispatch` started, the values returned by the calls of `process_data`
(latest first), and the output written. -/
structure LoopState where
  samples_read : Nat
  iterations : Nat
  drains : List Int
  out : List Output
deriving DecidableEq, Repr

/-- The state at loop entry: `unsigned int samples_read = 0;`. -/
def LoopState.init : LoopState :=
  { samples_read := 0, iterations := 0, drains := [], out := [] }

/-- The handler of the read condition:
`[reader, &samples_read]() { samples_read += process_data(reader); }`. -/
def read_condition_handler (reader : DataReader) (s : LoopState) : Except Thrown LoopState :=
  match process_data reader with
  | .error e => .error e
  | .ok d =>
    .ok { s with
      samples_read := addUInt32 s.samples_read (toUInt32 d.count),
      drains := d.count :: s.drains,
      out := s.out ++ d.out }

/-- The call `waitset.dispatch(dds::core::Duration(1))`: wait, then run the
handler of the read condition if it is active ("Run the handlers of the active
conditions. Wait for up to 1 second."). An exception thrown by the wait or by
the handler leaves the call. -/
def waitset_dispatch (o : DispatchOutcome) (s : LoopState) : Except Thrown LoopState :=
  match o with
  | .timeout => .ok s
  | .fired reader => read_condition_handler reader s
  | .fault e => .error e

/-- The guard of the loop:
`!application::shutdown_requested && samples_read < sample_count`. -/
def loop_guard (w : Substrate) (sample_count : Nat) (s : LoopState) : Bool :=
  !(w.shutdown_requested s.iterations) && decide (s.samples_read < sample_count)

/-- The state in which `waitset.dispatch` is called: the body has written its
line and one more call is under way. -/
def enter_body (s : LoopState) : LoopState :=
  { s with iterations := s.iterations + 1, out := s.out ++ [Output.sleeping] }

/-- The body of the loop: the output statement, then `waitset.dispatch`. -/
def loop_body (w : Substrate) (s : LoopState) : Except Thrown LoopState :=
  waitset_dispatch (w.dispatch s.iterations) (enter_body s)

/-- How a run of the loop ends: the guard failed, an exception left the loop,
or the loop is still running when the fuel is used up. -/
inductive LoopResult where
  | exited (s : LoopState)
  | raised (e : Thrown) (s : LoopState)
  | running (s : LoopState)
deriving DecidableEq, Repr

/-- The `while` loop of `run_subscriber_application`; `fuel` bounds the number
of calls of `waitset.dispatch`. -/
def event_loop (w : Substrate) (sample_count : Nat) : Nat → LoopState → LoopResult
  | 0, s => if loop_guard w sample_count s then .running s else .exited s
  | fuel + 1, s =>
    if loop_guard w sample_count s then
      match loop_body w s with
      | .ok s1 => event_loop w sample_count fuel s1
      | .error e => .raised e (enter_body s)
    else .exited s

/-- The state of the loop at the `k`-th evaluation of its guard (counting from
zero), if the loop gets that far. -/
def state_at (w : Substrate) (sample_count : Nat) : Nat → Option LoopState
  | 0 => some LoopState.init
  | k + 1 =>
    match state_at w sample_count k with
    | none => none
    | some s =>
      if loop_guard w sample_count s then
        match loop_body w s with
        | .ok s1 => some s1
        | .error _ => none
      else none

/-! ## run_subscriber_application and main -/

/-- Construction of entities in order; the first constructor that throws ends
the sequence. The second argument lists the entities already constructed. -/
def construct (w : Substrate) : List Entity → List Entity → Except (Thrown × List Entity) (List Entity)
  | [], done => .ok done
  | e :: rest, done =>
    match w.create e with
    | some t => .error (t, done)
    | none => construct w rest (done ++ [e])

/-- The entities of `run_subscriber_application` in the order the source
constructs them. -/
def entity_graph (idl : Idl) (domain_id : Nat) : List Entity :=
  [ Entity.qos_provider "file://MY_QOS_PROFILES.xml"
      ((("".append idl.qos_library).append "::").append idl.qos_profile),
    Entity.participant domain_id,
    Entity.topic idl.pose_topic_name,
    Entity.subscriber,
    Entity.content_filtered_topic "ContentFilteredTopic" cft_filter,
    Entity.reader (some cft_filter) true StatusMask.requested_incompatible_qos,
    Entity.read_condition,
    Entity.waitset ]

/-- How a call of `run_subscriber_application` ends, with the entities it
constructed and the state of its loop. -/
inductive RunResult where
  | returned (created : List Entity) (s : LoopState)
  | raised (e : Thrown) (created : List Entity) (s : LoopState)
  | running (created : List Entity) (s : LoopState)
deriving DecidableEq, Repr

/-- The function
`void run_subscriber_application(unsigned int domain_id, unsigned int sample_count)`:
the entities are constructed in order, then the loop runs. -/
def run_subscriber_application (w : Substrate) (idl : Idl) (domain_id sample_count fuel : Nat) :
    RunResult :=
  match construct w (entity_graph idl domain_id) [] with
  | .error (t, done) => .raised t done LoopState.init
  | .ok created =>
    match event_loop w sample_count fuel LoopState.init with
    | .exited s => .returned created s
    | .raised e s => .raised e created s
    | .running s => .running created s

/-- The values of `application::ParseReturn`. -/
inductive ParseReturn where
  | ok
  | failure
  | exit
deriving DecidableEq, Repr

/-- The result of `application::parse_arguments` (absent), as far as `main`
reads it. -/
structure ApplicationArguments where
  parse_result : ParseReturn
  domain_id : Nat
  sample_count : Nat
  verbosity : Nat
deriving DecidableEq, Repr

/-- The macro `EXIT_SUCCESS` of `<cstdlib>`. -/
def EXIT_SUCCESS : Int := 0

/-- The macro `EXIT_FAILURE` of `<cstdlib>`. -/
def EXIT_FAILURE : Int := 1

/-- How `main` ends: it returns an exit code (with what it wrote to
`std::cerr`), an exception no handler matches ends the process through
`std::terminate`, or the loop is still running when the fuel is used up. -/
inductive MainResult where
  | returned (code : Int) (err : List Output)
  | terminated (e : Thrown)
  | running
deriving DecidableEq, Repr

/-- The function `int main(int argc, char *argv[])`, from the result of
`parse_arguments` on. The handler `catch (const std::exception& ex)` matches
the objects derived from `std::exception` and no other. The calls that only
install the signal handlers, set the logger verbosity and release the
participant factory have no part in the exit code and are left out. -/
def main (arguments : ApplicationArguments) (w : Substrate) (idl : Idl) (fuel : Nat) :
    MainResult :=
  if arguments.parse_result = ParseReturn.exit then
    .returned EXIT_SUCCESS []
  else if arguments.parse_result = ParseReturn.failure then
    .returned EXIT_FAILURE []
  else
    match run_subscriber_application w idl arguments.domain_id arguments.sample_count fuel with
    | .raised (Thrown.exception what) _ _ => .returned EXIT_FAILURE [Output.exception_in_run what]
    | .raised Thrown.foreign _ _ => .terminated Thrown.foreign
    | .running _ _ => .running
    | .returned _ _ => .returned EXIT_SUCCESS []

/-! ## Quantities the statements speak about -/

/-- The state a run of the loop ended in. -/
def LoopResult.state : LoopResult → LoopState
  | .exited s => s
  | .raised _ s => s
  | .running s => s

/-- The number of valid samples in the batch that one call of
`waitset.dispatch` drains (none when the wait times out or throws). -/
def drained_valid (o : DispatchOutcome) : Nat :=
  match o with
  | .fired reader => validCount reader.buffer
  | _ => 0

/-- The total number of valid samples over the batches drained by the first
`N` calls of `waitset.dispatch`. -/
def valid_total (w : Substrate) : Nat → Nat
  | 0 => 0
  | k + 1 => valid_total w k + drained_valid (w.dispatch k)

/-- Every batch handed to the handler fits a DDS sequence, whose length is a
32-bit signed integer. -/
def batches_bounded (w : Substrate) : Prop :=
  ∀ k reader, w.dispatch k = DispatchOutcome.fired reader → reader.buffer.length < 2147483648

/-- A domain without publisher: every wait times out, or the batch drained
holds no valid sample. -/
def no_publisher (w : Substrate) : Prop :=
  ∀ k, w.dispatch k = DispatchOutcome.timeout ∨
    ∃ reader, w.dispatch k = DispatchOutcome.fired reader ∧ reader.fault = none ∧
      validCount reader.buffer = 0

/-- A substrate in which every constructor succeeds, nobody asks for shutdown
and every call of `waitset.dispatch` drains a batch of two valid samples. -/
def pairs_world : Substrate :=
  { create := fun _ => none,
    shutdown_requested := fun _ => false,
    dispatch := fun _ =>
      DispatchOutcome.fired
        { buffer := [poseSample 1, poseSample 2], fault := none, filter := some cft_filter } }

/-- The counter is the sum of the returned counts, reduced modulo `2^32`. -/
def sum_invariant (s : LoopState) : Prop :=
  (s.samples_read : Int) = s.drains.sum % 4294967296

/-- What is known of the latest drain: either no drain has run and the counter
is 0, or the latest drain returned a count `c` in the range of a non-negative
`int`, and the counter is `b + c` reduced modulo `2^32` for a value `b` below
the target (the counter when that drain started). -/
def last_drain_invariant (n : Nat) (s : LoopState) : Prop :=
  (s.drains = [] ∧ s.samples_read = 0) ∨
  ∃ c rest, ∃ b : Nat, s.drains = c :: rest ∧ 0 ≤ c ∧ c < 2147483648 ∧ b < n ∧
    (s.samples_read : Int) = ((b : Int) + c) % 4294967296

/-- A substrate without publisher whose shutdown flag is set from the third
evaluation of the loop guard on. -/
def idle_world : Substrate :=
  { create := fun _ => none,
    shutdown_requested := fun k => decide (2 ≤ k),
    dispatch := fun _ => DispatchOutcome.timeout }

/-- A substrate that drains a batch of two valid samples in the first
iteration and whose second wait fails. -/
def faulty_world : Substrate :=
  { create := fun _ => none,
    shutdown_requested := fun _ => false,
    dispatch := fun k =>
      if k = 0 then
        DispatchOutcome.fired
          { buffer := [poseSample 1, poseSample 2], fault := none, filter := some cft_filter }
      else DispatchOutcome.fault (Thrown.exception "wait failed") }

/-- The constants of the IDL used in the examples. -/
def example_idl : Idl :=
  { qos_library := "MyLibrary", qos_profile := "MyProfile", pose_topic_name := "Pose" }

/-- A substrate that drains one valid sample, then a batch of three, and then
times out for ever; nobody asks for shutdown. -/
def burst_world : Substrate :=
  { create := fun _ => none,
    shutdown_requested := fun _ => false,
    dispatch := fun k =>
      if k = 0 then
        DispatchOutcome.fired { buffer := [poseSample 1], fault := none, filter := some cft_filter }
      else if k = 1 then
        DispatchOutcome.fired
          { buffer := [poseSample 2, poseSample 3, poseSample 4], fault := none,
            filter := some cft_filter }
      else DispatchOutcome.timeout }

/-- A substrate in which the profile named by the IDL constants is unknown:
the constructor of the `QosProvider` throws, every other constructor works. -/
def unknown_profile_world : Substrate :=
  { create := fun e =>
      match e with
      | Entity.qos_provider _ _ => some (Thrown.exception "profile not found")
      | _ => none,
    shutdown_requested := fun _ => false,
    dispatch := fun _ => DispatchOutcome.timeout }

/-! ## The sample drain: lemmas -/

theorem wrapInt32_of_range (i : Int) (h0 : -2147483648 ≤ i) (h1 : i < 2147483648) :
    wrapInt32 i = i := by
  unfold wrapInt32
  omega

theorem validCount_cons (s : Sample) (rest : List Sample) :
    validCount (s :: rest) = validCount rest + (if s.info.valid then 1 else 0) := by
  unfold validCount
  rw [List.countP_cons]

theorem validCount_le_length (samples : List Sample) : validCount samples ≤ samples.length := by
  unfold validCount
  exact List.countP_le_length _

theorem foldl_process_sample_count (samples : List Sample) :
    ∀ st : DrainState, 0 ≤ st.count → st.count + (samples.length : Int) < 2147483648 →
      (samples.foldl process_sample st).count = st.count + (validCount samples : Int) := by
  induction samples with
  | nil => intro st _ _; simp [validCount]
  | cons s rest ih =>
    intro st h0 h1
    simp only [List.foldl_cons, List.length_cons, Nat.cast_add, Nat.cast_one] at h1 ⊢
    rw [validCount_cons]
    by_cases hv : s.info.valid = true
    · have hstep : (process_sample st s).count = st.count + 1 := by
        simp only [process_sample, hv, if_true]
        exact wrapInt32_of_range _ (by omega) (by omega)
      rw [ih (process_sample st s) (by omega) (by omega), hstep]
      simp [hv]
      omega
    · have hstep : (process_sample st s).count = st.count := by
        simp [process_sample, hv]
      rw [ih (process_sample st s) (by omega) (by omega), hstep]
      simp [hv]

theorem foldl_process_sample_out (samples : List Sample) :
    ∀ st : DrainState, (samples.foldl process_sample st).out = st.out ++ samples.map expose := by
  induction samples with
  | nil => intro st; simp
  | cons s rest ih =>
    intro st
    rw [List.foldl_cons, ih]
    by_cases hv : s.info.valid = true <;> simp [process_sample, expose, hv]

theorem foldl_process_sample_visited (samples : List Sample) :
    ∀ st : DrainState, (samples.foldl process_sample st).visited = st.visited ++ samples := by
  induction samples with
  | nil => intro st; simp
  | cons s rest ih =>
    intro st
    rw [List.foldl_cons, ih]
    by_cases hv : s.info.valid = true <;> simp [process_sample, hv]

theorem process_data_of_take (reader reader1 : DataReader) (samples : List Sample)
    (h : reader.take = .ok (samples, reader1)) :
    process_data reader =
      .ok { count := (samples.foldl process_sample { count := 0, out := [], visited := [] }).count,
            out := samples.map expose,
            visited := samples,
            reader := reader1 } := by
  unfold process_data
  rw [h]
  simp [foldl_process_sample_out, foldl_process_sample_visited]

theorem take_of_no_fault (reader : DataReader) (h : reader.fault = none) :
    reader.take = .ok (reader.buffer, { reader with buffer := [] }) := by
  unfold DataReader.take
  rw [h]

/-! ## C1 -/

/-- C1: for every batch that the reader's `take` returns (its length, like that
of every DDS sequence, fits a 32-bit signed integer), `process_data` returns
exactly the number of samples of the batch whose validity flag is set: a valid
sample adds one, an invalid one adds zero, the empty batch gives 0, and the
result lies between 0 and the size of the batch. -/
theorem process_data_counts_valid (reader reader1 : DataReader) (samples : List Sample)
    (htake : reader.take = .ok (samples, reader1))
    (hlen : samples.length < 2147483648) :
    ∃ d, process_data reader = .ok d ∧
      d.count = (validCount samples : Int) ∧
      (validCount samples : Int) =
        (samples.map (fun s => if s.info.valid then (1 : Int) else 0)).sum ∧
      (samples = [] → d.count = 0) ∧
      0 ≤ d.count ∧ d.count ≤ (samples.length : Int) := by
  refine ⟨_, process_data_of_take reader reader1 samples htake, ?_, ?_, ?_, ?_, ?_⟩
  · simpa using foldl_process_sample_count samples { count := 0, out := [], visited := [] }
      (by simp) (by simp; omega)
  · clear htake hlen
    induction samples with
    | nil => simp [validCount]
    | cons s rest ih =>
      rw [validCount_cons, List.map_cons, List.sum_cons, ← ih]
      by_cases hv : s.info.valid = true
      · simp [hv]
        omega
      · simp [hv]
  · intro he
    subst he
    simp
  · have := foldl_process_sample_count samples { count := 0, out := [], visited := [] }
      (by simp) (by simp; omega)
    simp only at this ⊢
    omega
  · have := foldl_process_sample_count samples { count := 0, out := [], visited := [] }
      (by simp) (by simp; omega)
    have hle := validCount_le_length samples
    simp only at this ⊢
    omega

/-- A batch of three samples, the second of which is a state-transition record:
`process_data` returns 2. -/
theorem process_data_counts_valid_witness :
    ∃ d, process_data { buffer := [poseSample 1,
            { info := { valid := false, instance_state := InstanceState.not_alive_disposed },
              data := { position := { x := 0 } } },
            poseSample 3], fault := none, filter := none } = .ok d ∧
      d.count = 2 := by
  obtain ⟨d, hd, hc, -⟩ := process_data_counts_valid
    { buffer := [poseSample 1,
        { info := { valid := false, instance_state := InstanceState.not_alive_disposed },
          data := { position := { x := 0 } } },
        poseSample 3], fault := none, filter := none }
    _ _ (take_of_no_fault _ rfl) (by decide)
  exact ⟨d, hd, by rw [hc]; decide⟩

/-! ## The event loop: lemmas -/

theorem process_data_ok (reader : DataReader) (h : reader.fault = none) :
    process_data reader =
      .ok { count := (reader.buffer.foldl process_sample
                        { count := 0, out := [], visited := [] }).count,
            out := reader.buffer.map expose,
            visited := reader.buffer,
            reader := { reader with buffer := [] } } :=
  process_data_of_take reader _ _ (take_of_no_fault reader h)

theorem process_data_error (reader : DataReader) (e : Thrown) (h : reader.fault = some e) :
    process_data reader = .error e := by
  unfold process_data DataReader.take
  rw [h]

theorem process_data_count_of_ok (reader : DataReader) (d : Drained)
    (h : process_data reader = .ok d) :
    reader.fault = none ∧
      d.count = (reader.buffer.foldl process_sample
                  { count := 0, out := [], visited := [] }).count := by
  cases hf : reader.fault with
  | some e => rw [process_data_error reader e hf] at h; cases h
  | none =>
    rw [process_data_ok reader hf] at h
    cases h
    exact ⟨rfl, rfl⟩

theorem loop_guard_iff (w : Substrate) (n : Nat) (s : LoopState) :
    loop_guard w n s = true ↔ w.shutdown_requested s.iterations = false ∧ s.samples_read < n := by
  simp [loop_guard]

theorem loop_guard_false_iff (w : Substrate) (n : Nat) (s : LoopState) :
    loop_guard w n s = false ↔ w.shutdown_requested s.iterations = true ∨ n ≤ s.samples_read := by
  cases hf : w.shutdown_requested s.iterations <;> simp [loop_guard, hf]

theorem waitset_dispatch_iterations (o : DispatchOutcome) (s s1 : LoopState)
    (h : waitset_dispatch o s = .ok s1) : s1.iterations = s.iterations := by
  cases o with
  | timeout => simp [waitset_dispatch] at h; rw [← h]
  | fault e => simp [waitset_dispatch] at h
  | fired reader =>
    simp only [waitset_dispatch, read_condition_handler] at h
    cases hp : process_data reader with
    | error e => rw [hp] at h; cases h
    | ok d => rw [hp] at h; cases h; rfl

theorem loop_body_iterations (w : Substrate) (s s1 : LoopState) (h : loop_body w s = .ok s1) :
    s1.iterations = s.iterations + 1 := by
  unfold loop_body at h
  rw [waitset_dispatch_iterations _ _ _ h]
  rfl

theorem event_loop_of_guard_false (w : Substrate) (n : Nat) (s : LoopState)
    (h : loop_guard w n s = false) : ∀ fuel, event_loop w n fuel s = .exited s := by
  intro fuel
  cases fuel <;> simp [event_loop, h]

theorem event_loop_step (w : Substrate) (n fuel : Nat) (s : LoopState)
    (h : loop_guard w n s = true) :
    event_loop w n (fuel + 1) s =
      match loop_body w s with
      | .ok s1 => event_loop w n fuel s1
      | .error e => .raised e (enter_body s) := by
  simp [event_loop, h]

theorem event_loop_exited_guard (w : Substrate) (n : Nat) :
    ∀ fuel s s1, event_loop w n fuel s = .exited s1 → loop_guard w n s1 = false := by
  intro fuel
  induction fuel with
  | zero =>
    intro s s1 h
    by_cases hg : loop_guard w n s = true
    · simp [event_loop, hg] at h
    · simp [event_loop, hg] at h
      rw [← h]
      simpa using hg
  | succ fuel ih =>
    intro s s1 h
    by_cases hg : loop_guard w n s = true
    · rw [event_loop_step w n fuel s hg] at h
      cases hb : loop_body w s with
      | error e => rw [hb] at h; cases h
      | ok s2 => rw [hb] at h; exact ih s2 s1 h
    · simp [event_loop, hg] at h
      rw [← h]
      simpa using hg

theorem event_loop_iterations_le (w : Substrate) (n : Nat) :
    ∀ fuel s, s.iterations ≤ (event_loop w n fuel s).state.iterations := by
  intro fuel
  induction fuel with
  | zero =>
    intro s
    by_cases hg : loop_guard w n s = true <;> simp [event_loop, hg, LoopResult.state]
  | succ fuel ih =>
    intro s
    by_cases hg : loop_guard w n s = true
    · rw [event_loop_step w n fuel s hg]
      cases hb : loop_body w s with
      | error e => simp [LoopResult.state, enter_body]
      | ok s2 =>
        have h1 := loop_body_iterations w s s2 hb
        have h2 := ih s2
        simp only
        omega
    · simp [event_loop, hg, LoopResult.state]

theorem state_at_succ (w : Substrate) (n k : Nat) (s1 : LoopState)
    (h : state_at w n (k + 1) = some s1) :
    ∃ s, state_at w n k = some s ∧ loop_guard w n s = true ∧ loop_body w s = .ok s1 := by
  simp only [state_at] at h
  cases hk : state_at w n k with
  | none => rw [hk] at h; cases h
  | some s =>
    rw [hk] at h
    by_cases hg : loop_guard w n s = true
    · simp only [hg, if_true] at h
      cases hb : loop_body w s with
      | error e => rw [hb] at h; cases h
      | ok s2 =>
        rw [hb] at h
        cases h
        exact ⟨s, rfl, hg, hb⟩
    · simp [hg] at h

theorem state_at_step (w : Substrate) (n k : Nat) (s s1 : LoopState)
    (hk : state_at w n k = some s) (hg : loop_guard w n s = true)
    (hb : loop_body w s = .ok s1) : state_at w n (k + 1) = some s1 := by
  simp [state_at, hk, hg, hb]

theorem state_at_iterations (w : Substrate) (n : Nat) :
    ∀ k s, state_at w n k = some s → s.iterations = k := by
  intro k
  induction k with
  | zero => intro s h; simp [state_at] at h; rw [← h]; rfl
  | succ k ih =>
    intro s1 h
    obtain ⟨s, hk, _, hb⟩ := state_at_succ w n k s1 h
    rw [loop_body_iterations w s s1 hb, ih s hk]

theorem event_loop_from_state_at (w : Substrate) (n : Nat) :
    ∀ k s, state_at w n k = some s →
      ∀ fuel, event_loop w n (k + fuel) LoopState.init = event_loop w n fuel s := by
  intro k
  induction k with
  | zero =>
    intro s h fuel
    simp [state_at] at h
    rw [← h, Nat.zero_add]
  | succ k ih =>
    intro s1 h fuel
    obtain ⟨s, hk, hg, hb⟩ := state_at_succ w n k s1 h
    have h1 := ih s hk (fuel + 1)
    rw [event_loop_step w n fuel s hg, hb] at h1
    have h2 : k + 1 + fuel = k + (fuel + 1) := by omega
    rw [h2, h1]

theorem loop_body_cases (w : Substrate) (s s1 : LoopState) (h : loop_body w s = .ok s1) :
    (w.dispatch s.iterations = DispatchOutcome.timeout ∧ s1 = enter_body s) ∨
    (∃ reader d, w.dispatch s.iterations = DispatchOutcome.fired reader ∧
      process_data reader = .ok d ∧
      s1 = { enter_body s with
              samples_read := addUInt32 s.samples_read (toUInt32 d.count),
              drains := d.count :: s.drains,
              out := (enter_body s).out ++ d.out }) := by
  unfold loop_body at h
  cases ho : w.dispatch s.iterations with
  | timeout =>
    left
    rw [ho] at h
    simp [waitset_dispatch] at h
    exact ⟨rfl, h.symm⟩
  | fault e =>
    rw [ho] at h
    simp [waitset_dispatch] at h
  | fired reader =>
    right
    rw [ho] at h
    simp only [waitset_dispatch, read_condition_handler] at h
    cases hp : process_data reader with
    | error e => rw [hp] at h; cases h
    | ok d =>
      rw [hp] at h
      cases h
      exact ⟨reader, d, rfl, hp, rfl⟩

theorem loop_body_error_cases (w : Substrate) (s : LoopState) (e : Thrown)
    (h : loop_body w s = .error e) :
    w.dispatch s.iterations = DispatchOutcome.fault e ∨
    ∃ reader, w.dispatch s.iterations = DispatchOutcome.fired reader ∧
      process_data reader = .error e := by
  unfold loop_body at h
  cases ho : w.dispatch s.iterations with
  | timeout => rw [ho] at h; simp [waitset_dispatch] at h
  | fault e1 =>
    rw [ho] at h
    simp [waitset_dispatch] at h
    left
    rw [h]
  | fired reader =>
    right
    rw [ho] at h
    simp only [waitset_dispatch, read_condition_handler] at h
    cases hp : process_data reader with
    | error e1 => rw [hp] at h; cases h; exact ⟨reader, rfl, hp⟩
    | ok d => rw [hp] at h; cases h

theorem foldl_process_sample_no_valid (samples : List Sample) :
    ∀ st : DrainState, validCount samples = 0 →
      (samples.foldl process_sample st).count = st.count := by
  induction samples with
  | nil => intro st _; rfl
  | cons s rest ih =>
    intro st h
    rw [validCount_cons] at h
    have hv : s.info.valid = false := by
      cases hs : s.info.valid with
      | false => rfl
      | true => rw [hs] at h; simp at h
    rw [List.foldl_cons, ih _ (by omega)]
    simp [process_sample, hv]

theorem addUInt32_toUInt32_cast (a : Nat) (c S : Int)
    (h : (a : Int) = S % 4294967296) :
    ((addUInt32 a (toUInt32 c) : Nat) : Int) = (c + S) % 4294967296 := by
  unfold addUInt32 toUInt32
  have h1 : 0 ≤ c % 4294967296 := Int.emod_nonneg c (by decide)
  have h2 : (((c % 4294967296).toNat : Nat) : Int) = c % 4294967296 := Int.toNat_of_nonneg h1
  push_cast
  rw [h2]
  omega

theorem sum_invariant_init : sum_invariant LoopState.init := by
  simp [sum_invariant, LoopState.init]

theorem sum_invariant_step (w : Substrate) (s s1 : LoopState) (h : loop_body w s = .ok s1)
    (hs : sum_invariant s) : sum_invariant s1 := by
  rcases loop_body_cases w s s1 h with ⟨_, h1⟩ | ⟨reader, d, _, _, h1⟩
  · rw [h1]
    exact hs
  · rw [h1]
    simp only [sum_invariant, List.sum_cons]
    exact addUInt32_toUInt32_cast _ _ _ hs

theorem state_at_sum_invariant (w : Substrate) (n : Nat) :
    ∀ k s, state_at w n k = some s → sum_invariant s := by
  intro k
  induction k with
  | zero => intro s h; simp [state_at] at h; rw [← h]; exact sum_invariant_init
  | succ k ih =>
    intro s1 h
    obtain ⟨s, hk, _, hb⟩ := state_at_succ w n k s1 h
    exact sum_invariant_step w s s1 hb (ih s hk)

theorem drains_step (w : Substrate) (hw : batches_bounded w) (s s1 : LoopState)
    (h : loop_body w s = .ok s1) :
    s1.drains.sum = s.drains.sum + (drained_valid (w.dispatch s.iterations) : Int) := by
  rcases loop_body_cases w s s1 h with ⟨ho, h1⟩ | ⟨reader, d, ho, hp, h1⟩
  · rw [h1, ho]
    simp [enter_body, drained_valid]
  · obtain ⟨_, hc⟩ := process_data_count_of_ok reader d hp
    have hlen := hw _ _ ho
    have hcount := foldl_process_sample_count reader.buffer
      { count := 0, out := [], visited := [] } (by simp) (by simp; omega)
    rw [h1, ho]
    simp only [List.sum_cons, drained_valid, enter_body]
    rw [hc, hcount]
    simp
    omega

theorem state_at_valid_total (w : Substrate) (hw : batches_bounded w) (n : Nat) :
    ∀ k s, state_at w n k = some s → s.drains.sum = (valid_total w k : Int) := by
  intro k
  induction k with
  | zero => intro s h; simp [state_at] at h; rw [← h]; simp [LoopState.init, valid_total]
  | succ k ih =>
    intro s1 h
    obtain ⟨s, hk, _, hb⟩ := state_at_succ w n k s1 h
    rw [drains_step w hw s s1 hb, ih s hk, state_at_iterations w n k s hk]
    simp [valid_total]

theorem sum_invariant_lt (s : LoopState) (hs : sum_invariant s) :
    s.samples_read < 4294967296 := by
  unfold sum_invariant at hs
  omega

theorem samples_read_unchanged (w : Substrate) (s s1 : LoopState) (h : loop_body w s = .ok s1)
    (hs : sum_invariant s)
    (hq : w.dispatch s.iterations = DispatchOutcome.timeout ∨
      ∃ reader, w.dispatch s.iterations = DispatchOutcome.fired reader ∧
        validCount reader.buffer = 0) :
    s1.samples_read = s.samples_read ∧ s1.drains.sum = s.drains.sum := by
  rcases loop_body_cases w s s1 h with ⟨_, h1⟩ | ⟨reader, d, ho, hp, h1⟩
  · rw [h1]
    exact ⟨rfl, rfl⟩
  · have hz : validCount reader.buffer = 0 := by
      rcases hq with hq | ⟨r2, hq, hz⟩
      · rw [hq] at ho; cases ho
      · rw [hq] at ho; cases ho; exact hz
    obtain ⟨_, hc⟩ := process_data_count_of_ok reader d hp
    rw [foldl_process_sample_no_valid reader.buffer _ hz] at hc
    have hlt := sum_invariant_lt s hs
    rw [h1]
    simp only [hc, List.sum_cons, zero_add, addUInt32, toUInt32]
    simp
    omega

/-! ## The substrate that keeps delivering pairs -/

theorem pairs_world_bounded : batches_bounded pairs_world := by
  intro k reader h
  simp only [pairs_world] at h
  cases h
  decide

theorem pairs_world_valid_total : ∀ k, valid_total pairs_world k = 2 * k := by
  intro k
  induction k with
  | zero => rfl
  | succ k ih =>
    have h2 : drained_valid (pairs_world.dispatch k) = 2 := by
      simp [pairs_world, drained_valid, validCount, poseSample]
    simp only [valid_total, ih, h2]
    omega

theorem pairs_world_reaches : ∀ k, ∃ s, state_at pairs_world 4294967295 k = some s := by
  intro k
  induction k with
  | zero => exact ⟨LoopState.init, rfl⟩
  | succ k ih =>
    obtain ⟨s, hs⟩ := ih
    have hinv := state_at_sum_invariant pairs_world 4294967295 k s hs
    have hsum := state_at_valid_total pairs_world pairs_world_bounded 4294967295 k s hs
    rw [pairs_world_valid_total] at hsum
    have hg : loop_guard pairs_world 4294967295 s = true := by
      rw [loop_guard_iff]
      refine ⟨rfl, ?_⟩
      unfold sum_invariant at hinv
      rw [hsum] at hinv
      push_cast at hinv
      omega
    have hb : ∃ s1, loop_body pairs_world s = .ok s1 := by
      unfold loop_body
      simp only [pairs_world, waitset_dispatch, read_condition_handler]
      rw [process_data_ok _ rfl]
      exact ⟨_, rfl⟩
    obtain ⟨s1, hb⟩ := hb
    exact ⟨s1, state_at_step pairs_world 4294967295 k s s1 hs hg hb⟩

/-! ## C2 -/

/-- C2 (as stated, refuted): with `sample_count = 4294967295` and a substrate
that delivers two valid samples to every drain, after 2147483648 iterations the
calls of `process_data` have returned 4294967296 in total, and `samples_read`
is 0, not that sum. -/
theorem samples_read_wraps :
    ∃ s, state_at pairs_world 4294967295 2147483648 = some s ∧
      s.drains.sum = 4294967296 ∧ valid_total pairs_world 2147483648 = 4294967296 ∧
      s.samples_read = 0 ∧ (s.samples_read : Int) ≠ s.drains.sum := by
  obtain ⟨s, hs⟩ := pairs_world_reaches 2147483648
  have hinv := state_at_sum_invariant pairs_world 4294967295 _ s hs
  have hsum := state_at_valid_total pairs_world pairs_world_bounded 4294967295 _ s hs
  rw [pairs_world_valid_total] at hsum
  unfold sum_invariant at hinv
  rw [hsum] at hinv
  refine ⟨s, hs, ?_, ?_, ?_, ?_⟩
  · rw [hsum]; norm_num
  · rw [pairs_world_valid_total]
  · have : (s.samples_read : Int) = 0 := by rw [hinv]; norm_num
    exact_mod_cast this
  · rw [hinv, hsum]; norm_num

/-- C2 (amended): `samples_read` starts at 0 and, at the `N`-th evaluation of
the loop guard, equals the sum of the values returned by the calls of
`process_data` so far reduced modulo `2^32` (so it equals that sum whenever the
sum is below `2^32`); when every batch fits a DDS sequence that sum is the total
number of valid samples over all drained batches. An iteration whose wait times
out, or whose batch holds no valid sample, leaves `samples_read` unchanged. -/
theorem samples_read_is_sum_mod (w : Substrate) (n N : Nat) (s : LoopState)
    (h : state_at w n N = some s) :
    (∃ s0, state_at w n 0 = some s0 ∧ s0.samples_read = 0 ∧ s0.drains = []) ∧
    s.iterations = N ∧
    (s.samples_read : Int) = s.drains.sum % 4294967296 ∧
    (0 ≤ s.drains.sum → s.drains.sum < 4294967296 → (s.samples_read : Int) = s.drains.sum) ∧
    (batches_bounded w →
      s.drains.sum = (valid_total w N : Int) ∧
      s.samples_read = valid_total w N % 4294967296) ∧
    (∀ s1, state_at w n (N + 1) = some s1 →
      (w.dispatch N = DispatchOutcome.timeout ∨
        ∃ reader, w.dispatch N = DispatchOutcome.fired reader ∧ validCount reader.buffer = 0) →
      s1.samples_read = s.samples_read ∧ s1.drains.sum = s.drains.sum) := by
  have hinv := state_at_sum_invariant w n N s h
  have hit := state_at_iterations w n N s h
  refine ⟨⟨LoopState.init, rfl, rfl, rfl⟩, hit, hinv, ?_, ?_, ?_⟩
  · intro h0 h1
    unfold sum_invariant at hinv
    omega
  · intro hw
    have hsum := state_at_valid_total w hw n N s h
    refine ⟨hsum, ?_⟩
    unfold sum_invariant at hinv
    rw [hsum] at hinv
    omega
  · intro s1 h1 hq
    obtain ⟨s2, hk, _, hb⟩ := state_at_succ w n N s1 h1
    rw [h] at hk
    cases hk
    rw [← hit] at hq
    exact samples_read_unchanged w s s1 hb hinv hq

/-- After three iterations of `pairs_world` the counter is 6. -/
theorem samples_read_is_sum_mod_witness :
    ∃ s, state_at pairs_world 10 3 = some s ∧ s.iterations = 3 ∧
      (s.samples_read : Int) = s.drains.sum % 4294967296 := by
  have h : state_at pairs_world 10 3 = some
      { samples_read := 6, iterations := 3, drains := [2, 2, 2],
        out := [Output.sleeping, Output.data (poseSample 1).data, Output.data (poseSample 2).data,
                Output.sleeping, Output.data (poseSample 1).data, Output.data (poseSample 2).data,
                Output.sleeping, Output.data (poseSample 1).data,
                Output.data (poseSample 2).data] } := by
    decide
  obtain ⟨_, h1, h2, _⟩ := samples_read_is_sum_mod pairs_world 10 3 _ h
  exact ⟨_, h, h1, h2⟩

/-! ## C3 -/

/-- C3: the loop checks its exit condition before every call of
`waitset.dispatch`. From any state, one more call is made exactly when the
shutdown flag is not set and `samples_read < sample_count`; when the flag is
set or the count is reached at a check the loop exits in that very state (no
further wait or drain); and whenever the loop exits normally, the flag is set
or `samples_read` has reached `sample_count`. -/
theorem event_loop_exit_check (w : Substrate) (n : Nat) (s : LoopState) :
    (∀ fuel, s.iterations < (event_loop w n (fuel + 1) s).state.iterations ↔
      (w.shutdown_requested s.iterations = false ∧ s.samples_read < n)) ∧
    (∀ fuel, (w.shutdown_requested s.iterations = true ∨ n ≤ s.samples_read) →
      event_loop w n fuel s = .exited s) ∧
    (∀ fuel, (w.shutdown_requested s.iterations = false ∧ s.samples_read < n) →
      event_loop w n (fuel + 1) s =
        match waitset_dispatch (w.dispatch s.iterations) (enter_body s) with
        | .ok s1 => event_loop w n fuel s1
        | .error e => .raised e (enter_body s)) ∧
    (∀ fuel s1, event_loop w n fuel s = .exited s1 →
      w.shutdown_requested s1.iterations = true ∨ n ≤ s1.samples_read) := by
  refine ⟨?_, ?_, ?_, ?_⟩
  · intro fuel
    rw [← loop_guard_iff]
    constructor
    · intro hlt
      by_contra hg
      have hg1 : loop_guard w n s = false := by simpa using hg
      rw [event_loop_of_guard_false w n s hg1] at hlt
      simp [LoopResult.state] at hlt
    · intro hg
      rw [event_loop_step w n fuel s hg]
      cases hb : loop_body w s with
      | error e => simp [LoopResult.state, enter_body]
      | ok s2 =>
        have h1 := loop_body_iterations w s s2 hb
        have h2 := event_loop_iterations_le w n fuel s2
        simp only
        omega
  · intro fuel hg
    exact event_loop_of_guard_false w n s ((loop_guard_false_iff w n s).mpr hg) fuel
  · intro fuel hg
    exact event_loop_step w n fuel s ((loop_guard_iff w n s).mpr hg)
  · intro fuel s1 h
    exact (loop_guard_false_iff w n s1).mp (event_loop_exited_guard w n fuel s s1 h)

/-! ## C6 -/

theorem no_publisher_body (w : Substrate) (hw : no_publisher w) (s : LoopState)
    (h0 : s.samples_read = 0) :
    ∃ s1, loop_body w s = .ok s1 ∧ s1.samples_read = 0 ∧ s1.iterations = s.iterations + 1 := by
  rcases hw s.iterations with ho | ⟨reader, ho, hf, hz⟩
  · refine ⟨enter_body s, ?_, h0, rfl⟩
    unfold loop_body
    rw [ho]
    rfl
  · have hp := process_data_ok reader hf
    rw [foldl_process_sample_no_valid reader.buffer _ hz] at hp
    refine ⟨{ enter_body s with
                samples_read := addUInt32 s.samples_read (toUInt32 0),
                drains := 0 :: s.drains,
                out := (enter_body s).out ++ reader.buffer.map expose }, ?_, ?_, ?_⟩
    · unfold loop_body
      rw [ho]
      simp only [waitset_dispatch, read_condition_handler, hp]
      rfl
    · simp [h0, addUInt32, toUInt32]
    · rfl

theorem no_publisher_loop (w : Substrate) (n : Nat) (hn : 0 < n) (hw : no_publisher w) :
    ∀ fuel s, s.samples_read = 0 →
      (∃ s1, event_loop w n fuel s = .exited s1 ∧ s1.samples_read = 0 ∧
        w.shutdown_requested s1.iterations = true ∧
        s.iterations ≤ s1.iterations ∧ s1.iterations ≤ s.iterations + fuel ∧
        ∀ j, s.iterations ≤ j → j < s1.iterations → w.shutdown_requested j = false) ∨
      (∃ s1, event_loop w n fuel s = .running s1 ∧ s1.samples_read = 0 ∧
        s1.iterations = s.iterations + fuel ∧
        ∀ j, s.iterations ≤ j → j ≤ s1.iterations → w.shutdown_requested j = false) := by
  intro fuel
  induction fuel with
  | zero =>
    intro s h0
    cases hf : w.shutdown_requested s.iterations with
    | true =>
      left
      refine ⟨s, ?_, h0, hf, le_refl _, by omega, ?_⟩
      · exact event_loop_of_guard_false w n s ((loop_guard_false_iff w n s).mpr (Or.inl hf)) 0
      · intro j h1 h2; omega
    | false =>
      right
      have hg : loop_guard w n s = true := (loop_guard_iff w n s).mpr ⟨hf, by omega⟩
      refine ⟨s, by simp [event_loop, hg], h0, rfl, ?_⟩
      intro j h1 h2
      have : j = s.iterations := by omega
      rw [this]; exact hf
  | succ fuel ih =>
    intro s h0
    cases hf : w.shutdown_requested s.iterations with
    | true =>
      left
      refine ⟨s, ?_, h0, hf, le_refl _, by omega, ?_⟩
      · exact event_loop_of_guard_false w n s ((loop_guard_false_iff w n s).mpr (Or.inl hf)) _
      · intro j h1 h2; omega
    | false =>
      have hg : loop_guard w n s = true := (loop_guard_iff w n s).mpr ⟨hf, by omega⟩
      obtain ⟨s2, hb, h2, hi⟩ := no_publisher_body w hw s h0
      have hstep : event_loop w n (fuel + 1) s = event_loop w n fuel s2 := by
        rw [event_loop_step w n fuel s hg, hb]
      rw [hstep]
      have hflag : ∀ j, s.iterations ≤ j → j < s2.iterations → w.shutdown_requested j = false := by
        intro j h3 h4
        have : j = s.iterations := by omega
        rw [this]; exact hf
      rcases ih s2 h2 with ⟨s1, he, hz, hfl, hle, hub, hall⟩ | ⟨s1, he, hz, hit, hall⟩
      · left
        refine ⟨s1, he, hz, hfl, by omega, by omega, ?_⟩
        intro j h3 h4
        by_cases hj : j < s2.iterations
        · exact hflag j h3 hj
        · exact hall j (by omega) h4
      · right
        refine ⟨s1, he, hz, by omega, ?_⟩
        intro j h3 h4
        by_cases hj : j < s2.iterations
        · exact hflag j h3 hj
        · exact hall j (by omega) h4

/-- C6: with a positive target and no publisher (every wait times out, or the
drained batch holds no valid sample), `samples_read` is 0 at every check, the
loop never exits because of the count and raises nothing: it exits exactly at
the first check at which the shutdown flag is set, and keeps running as long
as the flag is not set. -/
theorem no_publisher_exits_only_on_shutdown (w : Substrate) (n : Nat) (hn : 0 < n)
    (hw : no_publisher w) :
    (∀ fuel s1, event_loop w n fuel LoopState.init = .exited s1 →
      s1.samples_read = 0 ∧ s1.samples_read < n ∧ w.shutdown_requested s1.iterations = true ∧
      ∀ j, j < s1.iterations → w.shutdown_requested j = false) ∧
    (∀ fuel e s1, event_loop w n fuel LoopState.init ≠ .raised e s1) ∧
    (∀ fuel s1, event_loop w n fuel LoopState.init = .running s1 →
      s1.samples_read = 0 ∧ s1.iterations = fuel ∧
      ∀ j, j ≤ fuel → w.shutdown_requested j = false) ∧
    (∀ k, w.shutdown_requested k = true → (∀ j, j < k → w.shutdown_requested j = false) →
      ∀ fuel, k ≤ fuel → ∃ s1, event_loop w n fuel LoopState.init = .exited s1 ∧
        s1.iterations = k ∧ s1.samples_read = 0) ∧
    ((∀ k, w.shutdown_requested k = false) →
      ∀ fuel, ∃ s1, event_loop w n fuel LoopState.init = .running s1) := by
  have key := fun fuel => no_publisher_loop w n hn hw fuel LoopState.init rfl
  have hi0 : LoopState.init.iterations = 0 := rfl
  refine ⟨?_, ?_, ?_, ?_, ?_⟩
  · intro fuel s1 h
    rcases key fuel with ⟨s2, he, hz, hfl, _, _, hall⟩ | ⟨s2, he, _⟩
    · rw [he] at h
      cases h
      exact ⟨hz, by omega, hfl, fun j hj => hall j (by omega) hj⟩
    · rw [he] at h; cases h
  · intro fuel e s1 h
    rcases key fuel with ⟨s2, he, _⟩ | ⟨s2, he, _⟩ <;> rw [he] at h <;> cases h
  · intro fuel s1 h
    rcases key fuel with ⟨s2, he, _⟩ | ⟨s2, he, hz, hit, hall⟩
    · rw [he] at h; cases h
    · rw [he] at h
      cases h
      rw [hi0] at hit
      refine ⟨hz, by omega, ?_⟩
      intro j hj
      exact hall j (by omega) (by omega)
  · intro k hk hbefore fuel hle
    rcases key fuel with ⟨s2, he, hz, hfl, _, _, hall⟩ | ⟨s2, he, hz, hit, hall⟩
    · refine ⟨s2, he, ?_, hz⟩
      rcases Nat.lt_trichotomy s2.iterations k with hlt | heq | hgt
      · have := hbefore _ hlt
        rw [hfl] at this; cases this
      · exact heq
      · have := hall k (by omega) hgt
        rw [hk] at this; cases this
    · have := hall k (by omega) (by omega)
      rw [hk] at this; cases this
  · intro hnever fuel
    rcases key fuel with ⟨s2, he, hz, hfl, _⟩ | ⟨s2, he, _⟩
    · rw [hnever] at hfl; cases hfl
    · exact ⟨s2, he⟩

/-- Target 3, every wait times out, the flag is set at the third check: the
loop exits there, with `samples_read = 0`, after two calls of the wait. -/
theorem no_publisher_exits_only_on_shutdown_witness :
    ∃ s1, event_loop idle_world 3 5 LoopState.init = .exited s1 ∧
      s1.iterations = 2 ∧ s1.samples_read = 0 :=
  (no_publisher_exits_only_on_shutdown idle_world 3 (by decide)
    (fun _ => Or.inl rfl)).2.2.2.1 2 (by decide)
    (fun j hj => by
      have h : j = 0 ∨ j = 1 := by omega
      rcases h with h | h <;> subst h <;> decide)
    5 (by decide)

/-! ## C8 -/

theorem state_at_none_after (w : Substrate) (n k : Nat) (h : state_at w n k = none) :
    ∀ m, k ≤ m → state_at w n m = none := by
  intro m hm
  induction m with
  | zero =>
    have : k = 0 := by omega
    rw [← this]; exact h
  | succ m ih =>
    by_cases hk : k = m + 1
    · rw [← hk]; exact h
    · have := ih (by omega)
      simp [state_at, this]

/-- C8: when the loop has reached its `k`-th check, starts one more iteration,
and the wait of that iteration or the drain run by the handler raises `e`, the
loop ends in that iteration: the counter and the record of drains are what
they were, `k + 1` calls of the wait have been made and no later check is ever
reached, and `run_subscriber_application` raises `e` instead of returning. -/
theorem loop_fault_propagates (w : Substrate) (n k : Nat) (s : LoopState) (e : Thrown)
    (hk : state_at w n k = some s) (hg : loop_guard w n s = true)
    (hf : w.dispatch k = DispatchOutcome.fault e ∨
      ∃ reader, w.dispatch k = DispatchOutcome.fired reader ∧ process_data reader = .error e) :
    (∀ fuel, k < fuel → event_loop w n fuel LoopState.init = .raised e (enter_body s)) ∧
    (enter_body s).iterations = k + 1 ∧
    (enter_body s).samples_read = s.samples_read ∧
    (enter_body s).drains = s.drains ∧
    (∀ m, k < m → state_at w n m = none) ∧
    (∀ idl domain_id created, construct w (entity_graph idl domain_id) [] = .ok created →
      ∀ fuel, k < fuel →
        run_subscriber_application w idl domain_id n fuel = .raised e created (enter_body s)) := by
  have hit := state_at_iterations w n k s hk
  have hb : loop_body w s = .error e := by
    unfold loop_body
    rw [hit]
    rcases hf with ho | ⟨reader, ho, hp⟩
    · rw [ho]; rfl
    · rw [ho]
      simp only [waitset_dispatch, read_condition_handler, hp]
  have hloop : ∀ fuel, k < fuel → event_loop w n fuel LoopState.init = .raised e (enter_body s) := by
    intro fuel hlt
    obtain ⟨r, hr⟩ : ∃ r, fuel = k + (r + 1) := ⟨fuel - k - 1, by omega⟩
    rw [hr, event_loop_from_state_at w n k s hk, event_loop_step w n r s hg, hb]
  refine ⟨hloop, ?_, rfl, rfl, ?_, ?_⟩
  · simp [enter_body, hit]
  · have hnone : state_at w n (k + 1) = none := by
      simp [state_at, hk, hg, hb]
    intro m hm
    exact state_at_none_after w n (k + 1) hnone m hm
  · intro idl domain_id created hc fuel hlt
    simp [run_subscriber_application, hc, hloop fuel hlt]

/-- The second wait of `faulty_world` fails: the run raises that exception
after two calls of the wait, with the two samples of the first drain counted. -/
theorem loop_fault_propagates_witness :
    event_loop faulty_world 5 7 LoopState.init =
      .raised (Thrown.exception "wait failed")
        { samples_read := 2, iterations := 2, drains := [2],
          out := [Output.sleeping, Output.data (poseSample 1).data,
                  Output.data (poseSample 2).data, Output.sleeping] } :=
  (loop_fault_propagates faulty_world 5 1
    { samples_read := 2, iterations := 1, drains := [2],
      out := [Output.sleeping, Output.data (poseSample 1).data,
              Output.data (poseSample 2).data] }
    (Thrown.exception "wait failed") (by decide) (by decide) (Or.inl (by decide))).1 7 (by decide)

/-! ## C10 -/

theorem last_drain_invariant_step (w : Substrate) (hw : batches_bounded w) (n : Nat)
    (s s1 : LoopState) (hg : loop_guard w n s = true) (hb : loop_body w s = .ok s1)
    (hs : last_drain_invariant n s) : last_drain_invariant n s1 := by
  rcases loop_body_cases w s s1 hb with ⟨_, h1⟩ | ⟨reader, d, ho, hp, h1⟩
  · rw [h1]
    exact hs
  · right
    obtain ⟨_, hc⟩ := process_data_count_of_ok reader d hp
    have hlen := hw _ _ ho
    have hcount := foldl_process_sample_count reader.buffer
      { count := 0, out := [], visited := [] } (by simp) (by simp; omega)
    have hle := validCount_le_length reader.buffer
    simp only [zero_add] at hcount
    rw [hcount] at hc
    have hlt := ((loop_guard_iff w n s).mp hg).2
    have hsr : s.samples_read < 4294967296 := by
      rcases hs with ⟨_, h0⟩ | ⟨c, rest, b, _, _, _, _, hmod⟩
      · omega
      · omega
    refine ⟨d.count, s.drains, s.samples_read, ?_, by omega, by omega, hlt, ?_⟩
    · rw [h1]
    · rw [h1]
      simp only [addUInt32, toUInt32]
      have h2 : (((d.count % 4294967296).toNat : Nat) : Int) = d.count % 4294967296 :=
        Int.toNat_of_nonneg (Int.emod_nonneg _ (by decide))
      push_cast
      rw [h2]
      omega

theorem last_drain_invariant_exit (w : Substrate) (hw : batches_bounded w) (n : Nat) :
    ∀ fuel s s1, last_drain_invariant n s → event_loop w n fuel s = .exited s1 →
      last_drain_invariant n s1 := by
  intro fuel
  induction fuel with
  | zero =>
    intro s s1 hs h
    by_cases hg : loop_guard w n s = true
    · simp [event_loop, hg] at h
    · simp [event_loop, hg] at h
      rw [← h]; exact hs
  | succ fuel ih =>
    intro s s1 hs h
    by_cases hg : loop_guard w n s = true
    · rw [event_loop_step w n fuel s hg] at h
      cases hb : loop_body w s with
      | error e => rw [hb] at h; cases h
      | ok s2 =>
        rw [hb] at h
        exact ih s2 s1 (last_drain_invariant_step w hw n s s2 hg hb hs) h
    · simp [event_loop, hg] at h
      rw [← h]; exact hs

/-- C10: a batch is drained whole, so the counter can pass the target, but only
by the last batch. When the loop exits and the shutdown flag is not set at that
check, `samples_read` is at least `sample_count`, and if a drain ran, the count
`c` returned by the latest one satisfies `samples_read - c < sample_count`.
With `sample_count = 0` the loop exits at once: no wait and no drain. (Every
batch fits a DDS sequence, whose length is a 32-bit signed integer.) -/
theorem overshoot_bounded_by_last_batch (w : Substrate) (n fuel : Nat) (s : LoopState)
    (hw : batches_bounded w)
    (hexit : event_loop w n fuel LoopState.init = .exited s) :
    (w.shutdown_requested s.iterations = false →
      n ≤ s.samples_read ∧
      ∀ c rest, s.drains = c :: rest →
        0 ≤ c ∧ c ≤ (s.samples_read : Int) ∧ (s.samples_read : Int) - c < (n : Int)) ∧
    (n = 0 → s = LoopState.init ∧ s.iterations = 0 ∧ s.drains = []) := by
  have hguard := event_loop_exited_guard w n fuel _ s hexit
  have hinv := last_drain_invariant_exit w hw n fuel _ s (Or.inl ⟨rfl, rfl⟩) hexit
  constructor
  · intro hflag
    have hge : n ≤ s.samples_read := by
      rcases (loop_guard_false_iff w n s).mp hguard with h | h
      · rw [hflag] at h; cases h
      · exact h
    refine ⟨hge, ?_⟩
    intro c rest hd
    rcases hinv with ⟨h0, _⟩ | ⟨c1, rest1, b, hd1, hc0, hc1, hb, hmod⟩
    · rw [h0] at hd; cases hd
    · rw [hd1] at hd
      cases hd
      omega
  · intro hn
    subst hn
    have h0 : event_loop w 0 fuel LoopState.init = .exited LoopState.init :=
      event_loop_of_guard_false w 0 _ (by simp [loop_guard]) fuel
    rw [h0] at hexit
    cases hexit
    exact ⟨rfl, rfl, rfl⟩

/-- Target 2, a first batch of one sample and a second of three: the loop exits
with `samples_read = 4`, and `4 - 3 < 2`. -/
theorem overshoot_bounded_by_last_batch_witness :
    event_loop burst_world 2 6 LoopState.init =
      .exited { samples_read := 4, iterations := 2, drains := [3, 1],
                out := [Output.sleeping, Output.data (poseSample 1).data,
                        Output.sleeping, Output.data (poseSample 2).data,
                        Output.data (poseSample 3).data, Output.data (poseSample 4).data] } ∧
    (2 ≤ 4 ∧ ∀ c rest, ([3, 1] : List Int) = c :: rest →
        0 ≤ c ∧ c ≤ ((4 : Nat) : Int) ∧ ((4 : Nat) : Int) - c < ((2 : Nat) : Int)) :=
  ⟨by decide,
   (overshoot_bounded_by_last_batch burst_world 2 6
    { samples_read := 4, iterations := 2, drains := [3, 1],
      out := [Output.sleeping, Output.data (poseSample 1).data,
              Output.sleeping, Output.data (poseSample 2).data,
              Output.data (poseSample 3).data, Output.data (poseSample 4).data] }
    (by
      intro k reader h
      simp only [burst_world] at h
      split at h
      · cases h; decide
      · split at h
        · cases h; decide
        · cases h)
    (by decide)).1 rfl⟩

/-! ## C4 -/

theorem deliver_fault (reader : DataReader) (sample : Sample) :
    (reader.deliver sample).fault = reader.fault ∧
      (reader.deliver sample).filter = reader.filter := by
  unfold DataReader.deliver
  split
  · exact ⟨rfl, rfl⟩
  · split <;> exact ⟨rfl, rfl⟩

theorem deliver_buffer (reader : DataReader) (sample : Sample) :
    ∃ added, (reader.deliver sample).buffer = reader.buffer ++ added ∧
      ∀ x, x ∈ added → x = sample := by
  unfold DataReader.deliver
  cases reader.filter with
  | none => exact ⟨[sample], rfl, by simp⟩
  | some f =>
    by_cases ha : f.admits sample.data = true
    · exact ⟨[sample], by simp [ha], by simp⟩
    · exact ⟨[], by simp [ha], by simp⟩

theorem deliverAll_spec (arrivals : List Sample) :
    ∀ reader : DataReader,
      (reader.deliverAll arrivals).fault = reader.fault ∧
      ∃ added, (reader.deliverAll arrivals).buffer = reader.buffer ++ added ∧
        ∀ x, x ∈ added → x ∈ arrivals := by
  induction arrivals with
  | nil => intro reader; exact ⟨rfl, [], by simp [DataReader.deliverAll], by simp⟩
  | cons a rest ih =>
    intro reader
    obtain ⟨hf, added, hb, hmem⟩ := ih (reader.deliver a)
    obtain ⟨a1, hb1, hm1⟩ := deliver_buffer reader a
    have hstep : reader.deliverAll (a :: rest) = (reader.deliver a).deliverAll rest := rfl
    rw [hstep]
    refine ⟨by rw [hf, (deliver_fault reader a).1], a1 ++ added, ?_, ?_⟩
    · rw [hb, hb1, List.append_assoc]
    · intro x hx
      rcases List.mem_append.mp hx with h | h
      · rw [hm1 x h]; simp
      · exact List.mem_cons_of_mem _ (hmem x h)

/-- C4: a drain is loss-free and duplicate-free. One call of `process_data` on
a working reader takes the whole buffer in one batch, runs the loop body once
on each buffered sample, in order, and leaves the buffer empty; so the samples
processed are, as a multiset, exactly those buffered, and the next drain
processes exactly the samples buffered since, each of which arrived after the
first drain. -/
theorem drain_loss_free (reader : DataReader) (h : reader.fault = none) :
    ∃ d, process_data reader = .ok d ∧
      reader.take = .ok (reader.buffer, d.reader) ∧
      d.visited = reader.buffer ∧
      (d.visited : Multiset Sample) = (reader.buffer : Multiset Sample) ∧
      d.out = reader.buffer.map expose ∧
      d.out.length = reader.buffer.length ∧
      d.reader.buffer = [] ∧
      ∀ arrivals, ∃ d2, process_data (d.reader.deliverAll arrivals) = .ok d2 ∧
        d2.visited = (d.reader.deliverAll arrivals).buffer ∧
        (∀ x, x ∈ d2.visited → x ∈ arrivals) ∧
        d2.reader.buffer = [] := by
  refine ⟨_, process_data_ok reader h, take_of_no_fault reader h, rfl, rfl, rfl, by simp, rfl, ?_⟩
  intro arrivals
  obtain ⟨hf, added, hb, hmem⟩ :=
    deliverAll_spec arrivals { reader with buffer := ([] : List Sample) }
  have hf2 : (DataReader.deliverAll { reader with buffer := ([] : List Sample) } arrivals).fault
      = none := by
    rw [hf]; exact h
  refine ⟨_, process_data_ok _ hf2, rfl, ?_, rfl⟩
  intro x hx
  simp only at hx
  rw [hb] at hx
  simp only [List.nil_append] at hx
  exact hmem x hx

/-- A reader holding two samples is drained; then one update arrives and the
next drain processes exactly that one. -/
theorem drain_loss_free_witness :
    ∃ d, process_data { buffer := [poseSample 1, poseSample 2], fault := none, filter := none }
        = .ok d ∧
      d.visited = [poseSample 1, poseSample 2] ∧ d.reader.buffer = [] ∧
      ∃ d2, process_data (d.reader.deliverAll [poseSample 3]) = .ok d2 ∧
        d2.visited = [poseSample 3] := by
  obtain ⟨d, hd, _, hv, _, _, _, he, hnext⟩ := drain_loss_free
    { buffer := [poseSample 1, poseSample 2], fault := none, filter := none } rfl
  obtain ⟨d2, hd2, hv2, _⟩ := hnext [poseSample 3]
  refine ⟨d, hd, hv, he, d2, hd2, ?_⟩
  rw [hv2]
  rw [process_data_ok _ rfl] at hd
  cases hd
  rfl

/-! ## C5 -/

theorem cft_filter_admits (p : Pose) : cft_filter.admits p = decide (0 ≤ p.position.x) := by
  simp [Filter.admits, cft_filter, Pose.field?, CmpOp.holds]

/-- C5: the reader of `run_subscriber_application` is bound to the topic
filtered by `position.x >= 0`. With that filter an update whose `position.x`
is below 0 leaves the reader as it was, and an update whose `position.x` is at
or above 0 is appended to the reader's buffer. When three valid updates arrive
with `position.x` equal to -1, 0 and 5, the drain returns 2 and exposes exactly
the samples with the values 0 and 5. -/
theorem content_filter_delivery :
    (∀ idl domain_id,
      Entity.content_filtered_topic "ContentFilteredTopic" cft_filter ∈
        entity_graph idl domain_id ∧
      Entity.reader (some cft_filter) true StatusMask.requested_incompatible_qos ∈
        entity_graph idl domain_id) ∧
    (∀ (reader : DataReader) (sample : Sample), reader.filter = some cft_filter →
      sample.data.position.x < 0 → reader.deliver sample = reader) ∧
    (∀ (reader : DataReader) (sample : Sample), reader.filter = some cft_filter →
      0 ≤ sample.data.position.x →
      (reader.deliver sample).buffer = reader.buffer ++ [sample]) ∧
    (∃ d, process_data
        (filtered_reader.deliverAll [poseSample (-1), poseSample 0, poseSample 5]) = .ok d ∧
      d.count = 2 ∧
      d.visited = [poseSample 0, poseSample 5] ∧
      d.out = [Output.data (poseSample 0).data, Output.data (poseSample 5).data]) := by
  refine ⟨?_, ?_, ?_, ?_⟩
  · intro idl domain_id
    simp [entity_graph]
  · intro reader sample hf hx
    unfold DataReader.deliver
    rw [hf]
    simp only [cft_filter_admits]
    have : ¬ (0 ≤ sample.data.position.x) := by omega
    simp [this]
  · intro reader sample hf hx
    unfold DataReader.deliver
    rw [hf]
    simp only [cft_filter_admits]
    simp [hx]
  · have hb : filtered_reader.deliverAll [poseSample (-1), poseSample 0, poseSample 5] =
        { buffer := [poseSample 0, poseSample 5], fault := none, filter := some cft_filter } := by
      simp [DataReader.deliverAll, DataReader.deliver, filtered_reader, cft_filter_admits,
        poseSample]
    rw [hb, process_data_ok _ rfl]
    refine ⟨_, rfl, ?_, rfl, ?_⟩
    · decide
    · decide

/-! ## C7 -/

/-- C7: `main` returns `EXIT_SUCCESS`, which is 0, when the argument parser
asks for an early exit and when `run_subscriber_application` returns normally.
When `run_subscriber_application` raises an exception (a DDS exception is a
`std::exception`: configuration error, entity-creation error, substrate fault
during the run), `main` returns `EXIT_FAILURE`, which is not 0; whatever was
raised, `main` does not return `EXIT_SUCCESS`. A constructor that throws ends
`run_subscriber_application` with that exception before any later entity is
constructed: with an unknown profile nothing at all is constructed. -/
theorem main_exit_code (arguments : ApplicationArguments) (w : Substrate) (idl : Idl)
    (fuel : Nat) :
    EXIT_SUCCESS = 0 ∧ EXIT_FAILURE ≠ 0 ∧
    (arguments.parse_result = ParseReturn.exit →
      main arguments w idl fuel = .returned EXIT_SUCCESS []) ∧
    (arguments.parse_result = ParseReturn.ok →
      (∀ created s,
        run_subscriber_application w idl arguments.domain_id arguments.sample_count fuel
          = .returned created s →
        main arguments w idl fuel = .returned EXIT_SUCCESS []) ∧
      (∀ what created s,
        run_subscriber_application w idl arguments.domain_id arguments.sample_count fuel
          = .raised (Thrown.exception what) created s →
        main arguments w idl fuel = .returned EXIT_FAILURE [Output.exception_in_run what]) ∧
      (∀ e created s,
        run_subscriber_application w idl arguments.domain_id arguments.sample_count fuel
          = .raised e created s →
        ∀ err, main arguments w idl fuel ≠ .returned EXIT_SUCCESS err)) ∧
    (∀ t, w.create (Entity.qos_provider "file://MY_QOS_PROFILES.xml"
          ((("".append idl.qos_library).append "::").append idl.qos_profile)) = some t →
      run_subscriber_application w idl arguments.domain_id arguments.sample_count fuel
        = .raised t [] LoopState.init) ∧
    (∀ t done, construct w (entity_graph idl arguments.domain_id) [] = .error (t, done) →
      run_subscriber_application w idl arguments.domain_id arguments.sample_count fuel
        = .raised t done LoopState.init) := by
  refine ⟨rfl, by decide, ?_, ?_, ?_, ?_⟩
  · intro h
    simp [main, h]
  · intro h
    refine ⟨?_, ?_, ?_⟩
    · intro created s hr
      simp [main, h, hr]
    · intro what created s hr
      simp [main, h, hr]
    · intro e created s hr err
      cases e with
      | exception what =>
        simp [main, h, hr, EXIT_SUCCESS, EXIT_FAILURE]
      | foreign =>
        simp [main, h, hr]
  · intro t ht
    simp [run_subscriber_application, entity_graph, construct, ht]
  · intro t done hc
    simp [run_subscriber_application, hc]

/-- With an unknown profile, `main` writes the message of the exception and
returns `EXIT_FAILURE`. -/
theorem main_exit_code_witness :
    main { parse_result := ParseReturn.ok, domain_id := 0, sample_count := 3, verbosity := 0 }
        unknown_profile_world example_idl 4
      = .returned EXIT_FAILURE [Output.exception_in_run "profile not found"] :=
  ((main_exit_code
      { parse_result := ParseReturn.ok, domain_id := 0, sample_count := 3, verbosity := 0 }
      unknown_profile_world example_idl 4).2.2.2.1 rfl).2.1 "profile not found" []
    LoopState.init (by decide)

/-! ## C9 -/

/-- C9: for every status it receives, the incompatible-QoS handler reports the
cumulative mismatch count, the delta mismatch count and the identifier of the
mismatched policy that the status carries, after its heading line and in that
order; it is a notification only: it returns normally, raising nothing, and
changes neither `samples_read` nor the shutdown flag. The reader is created
with this listener and the mask `requested_incompatible_qos`. -/
theorem listener_reports_status (reader : DataReader) (status : RequestedIncompatibleQosStatus)
    (p : ProcessState) :
    (∀ idl domain_id,
      Entity.reader (some cft_filter) true StatusMask.requested_incompatible_qos ∈
        entity_graph idl domain_id) ∧
    (∀ e, MyReaderListener.on_requested_incompatible_qos reader status p ≠ .error e) ∧
    ∃ p1, MyReaderListener.on_requested_incompatible_qos reader status p = .ok p1 ∧
      p1.out = p.out ++ [Output.incompatible_offered_qos,
                         Output.total_count status.total_count,
                         Output.total_count_change status.total_count_change,
                         Output.last_policy_id status.last_policy_id] ∧
      reportedPolicies p1.out = reportedPolicies p.out ++ [status.last_policy_id] ∧
      p1.samples_read = p.samples_read ∧
      p1.shutdown_requested = p.shutdown_requested := by
  refine ⟨?_, ?_, _, rfl, rfl, ?_, rfl, rfl⟩
  · intro idl domain_id
    simp [entity_graph]
  · intro e h
    simp [MyReaderListener.on_requested_incompatible_qos] at h
  · simp [reportedPolicies, List.filterMap_append]

/-- The scenario of the spec: one mismatch, cumulative count 1 and delta 1, on
the policy with identifier 2; the handler writes the heading and these three
values and leaves the counter and the flag as they were. -/
theorem listener_reports_status_witness :
    MyReaderListener.on_requested_incompatible_qos filtered_reader
        { total_count := 1, total_count_change := 1, last_policy_id := 2 }
        { samples_read := 5, shutdown_requested := false, out := [] }
      = .ok { samples_read := 5, shutdown_requested := false,
              out := [Output.incompatible_offered_qos, Output.total_count 1,
                      Output.total_count_change 1, Output.last_policy_id 2] } := by
  obtain ⟨_, _, p1, h, ho, _, hs, hf⟩ := listener_reports_status filtered_reader
    { total_count := 1, total_count_change := 1, last_policy_id := 2 }
    { samples_read := 5, shutdown_requested := false, out := [] }
  rw [h]
  cases p1
  simp only at ho hs hf
  subst ho hs hf
  rfl

end ExampleSubscriber
